import Mathlib

/-!
Verification development for the OpenMiddleware middleware-composition core.

The repository ships the unit tests of the chain core, the testing helpers
and the four framework adapters, but not their implementation sources.  The
definitions below are therefore modelled from the design specification
(spec.md) — the continuation-based chain driver (§4.3–§4.4), the canonical
request/response model (§3, §4.1), the adapter contract (§6) and the error
policy (§7) — with the observable behaviour pinned by the repository's unit
tests.  All machine integers are modelled as Nat/Int, fallible operations
return Except, and every definition is executable.
-/

namespace OpenMiddleware

/-- Errors raised by handlers or by the canonical request/response model are
modelled as plain strings; the chain core never inspects them. -/
abbrev Err := String

/-! ### JSON values -/

/-- Modelled from the spec: the JSON payloads carried by the canonical
request/response model (§3, §4.1).  A standard JSON value tree with integer
numerics. -/
inductive JVal where
  | jNull : JVal
  | jBool (b : Bool) : JVal
  | jNum (n : Int) : JVal
  | jStr (s : String) : JVal
  | jArr (xs : List JVal) : JVal
  | jObj (fs : List (String × JVal)) : JVal

/-- The left-brace character, kept out of string literals. -/
def lbraceC : Char := Char.ofNat 123

/-- The right-brace character, kept out of string literals. -/
def rbraceC : Char := Char.ofNat 125

mutual

/-- Modelled from the spec: JSON serialization as performed by
`ResponseBuilder.json` (§4.1 — "serializes data").  String escaping is not
modelled. -/
def JVal.serialize : JVal → String
  | .jNull => "null"
  | .jBool true => "true"
  | .jBool false => "false"
  | .jNum n => toString n
  | .jStr s => "\"" ++ s ++ "\""
  | .jArr xs => "[" ++ serializeItems xs ++ "]"
  | .jObj fs => "\x7b" ++ serializeFields fs ++ "\x7d"

/-- Serialize the comma-separated elements of a JSON array. -/
def serializeItems : List JVal → String
  | [] => ""
  | [x] => JVal.serialize x
  | x :: y :: xs => JVal.serialize x ++ "," ++ serializeItems (y :: xs)

/-- Serialize the comma-separated members of a JSON object. -/
def serializeFields : List (String × JVal) → String
  | [] => ""
  | [(k, v)] => "\"" ++ k ++ "\":" ++ JVal.serialize v
  | (k, v) :: f :: fs =>
      "\"" ++ k ++ "\":" ++ JVal.serialize v ++ "," ++ serializeFields (f :: fs)

end

/-! ### JSON parsing (for `Request.json`) -/

/-- Drop leading JSON whitespace. -/
def skipWs : List Char → List Char
  | [] => []
  | c :: cs =>
      if c == ' ' || c == '\n' || c == '\t' || c == '\r' then skipWs cs
      else c :: cs

/-- Expect the literal characters `lit` at the head of the input. -/
def takeLit : List Char → List Char → Option (List Char)
  | [], cs => some cs
  | _ :: _, [] => none
  | l :: ls, c :: cs => if c == l then takeLit ls cs else none

/-- Consume a run of decimal digits, accumulating their value. -/
def parseNatAux : List Char → Nat → Nat × List Char
  | [], acc => (acc, [])
  | c :: cs, acc =>
      if c.isDigit then parseNatAux cs (acc * 10 + (c.toNat - 48))
      else (acc, c :: cs)

/-- Consume the characters of a JSON string literal up to the closing
quote (escape sequences are not modelled). -/
def parseStrChars : List Char → Except Err (List Char × List Char)
  | [] => .error "unterminated string"
  | c :: cs =>
      if c == '"' then .ok ([], cs)
      else
        match parseStrChars cs with
        | .ok (s, r) => .ok (c :: s, r)
        | .error e => .error e

mutual

/-- Modelled from the spec: the JSON parser backing the canonical request's
`json()` accessor (§4.1).  Fuel-indexed recursive descent; the fuel is an
upper bound on nesting and is always instantiated to more than the input
length. -/
def parseVal : Nat → List Char → Except Err (JVal × List Char)
  | 0, _ => .error "out of fuel"
  | f + 1, cs =>
    match skipWs cs with
    | [] => .error "unexpected end of input"
    | c :: rest =>
      if c == '"' then
        match parseStrChars rest with
        | .ok (s, r) => .ok (.jStr (String.mk s), r)
        | .error e => .error e
      else if c == lbraceC then
        match skipWs rest with
        | [] => .error "unterminated object"
        | c2 :: r2 =>
          if c2 == rbraceC then .ok (.jObj [], r2)
          else
            match parseFields f (c2 :: r2) with
            | .ok (fs, r3) => .ok (.jObj fs, r3)
            | .error e => .error e
      else if c == '[' then
        match skipWs rest with
        | [] => .error "unterminated array"
        | c2 :: r2 =>
          if c2 == ']' then .ok (.jArr [], r2)
          else
            match parseItems f (c2 :: r2) with
            | .ok (xs, r3) => .ok (.jArr xs, r3)
            | .error e => .error e
      else if c == 'n' then
        match takeLit ['u', 'l', 'l'] rest with
        | some r => .ok (.jNull, r)
        | none => .error "bad literal"
      else if c == 't' then
        match takeLit ['r', 'u', 'e'] rest with
        | some r => .ok (.jBool true, r)
        | none => .error "bad literal"
      else if c == 'f' then
        match takeLit ['a', 'l', 's', 'e'] rest with
        | some r => .ok (.jBool false, r)
        | none => .error "bad literal"
      else if c == '-' then
        match rest with
        | [] => .error "bad number"
        | d :: ds =>
          if d.isDigit then
            let p := parseNatAux ds (d.toNat - 48)
            .ok (.jNum (-(Int.ofNat p.1)), p.2)
          else .error "bad number"
      else if c.isDigit then
        let p := parseNatAux rest (c.toNat - 48)
        .ok (.jNum (Int.ofNat p.1), p.2)
      else .error "unexpected character"

/-- Parse the remaining comma-separated elements of a non-empty JSON
array, consuming the closing bracket. -/
def parseItems : Nat → List Char → Except Err (List JVal × List Char)
  | 0, _ => .error "out of fuel"
  | f + 1, cs =>
    match parseVal f cs with
    | .error e => .error e
    | .ok (v, r) =>
      match skipWs r with
      | [] => .error "unterminated array"
      | c :: r2 =>
        if c == ',' then
          match parseItems f r2 with
          | .ok (vs, r3) => .ok (v :: vs, r3)
          | .error e => .error e
        else if c == ']' then .ok ([v], r2)
        else .error "expected comma or bracket"

/-- Parse the remaining members of a non-empty JSON object, consuming the
closing brace. -/
def parseFields : Nat → List Char → Except Err (List (String × JVal) × List Char)
  | 0, _ => .error "out of fuel"
  | f + 1, cs =>
    match skipWs cs with
    | [] => .error "unterminated object"
    | c :: r =>
      if c == '"' then
        match parseStrChars r with
        | .error e => .error e
        | .ok (k, r2) =>
          match skipWs r2 with
          | [] => .error "unterminated object"
          | c2 :: r3 =>
            if c2 == ':' then
              match parseVal f r3 with
              | .error e => .error e
              | .ok (v, r4) =>
                match skipWs r4 with
                | [] => .error "unterminated object"
                | c3 :: r5 =>
                  if c3 == ',' then
                    match parseFields f r5 with
                    | .ok (fs, r6) => .ok ((String.mk k, v) :: fs, r6)
                    | .error e => .error e
                  else if c3 == rbraceC then .ok ([(String.mk k, v)], r5)
                  else .error "expected comma or brace"
            else .error "expected colon"
      else .error "expected string key"

end

/-- Modelled from the spec: `JSON.parse` as used by the canonical request's
`json()` accessor (§4.1). -/
def jsonParse (s : String) : Except Err JVal :=
  match parseVal (s.length + 1) s.toList with
  | .ok (v, r) => if (skipWs r).isEmpty then .ok v else .error "trailing characters"
  | .error e => .error e

/-! ### Case-insensitive headers -/

/-- Header names are case-insensitive (§3); keys are normalized to lower
case on write. -/
def normHeader (k : String) : String := k.toLower

/-- Whether a header list already carries the (normalized) key `k`. -/
def hasHeaderKey (hs : List (String × String)) (k : String) : Bool :=
  hs.any (fun p => p.1 == normHeader k)

/-- Last-write-wins header update with case-insensitive keys (§3). -/
def putHeader (hs : List (String × String)) (k v : String) : List (String × String) :=
  let key := normHeader k
  if hs.any (fun p => p.1 == key) then
    hs.map (fun p => if p.1 == key then (key, v) else p)
  else hs ++ [(key, v)]

/-- Case-insensitive header lookup returning the first value or none (§4.1). -/
def findHeader (hs : List (String × String)) (k : String) : Option String :=
  (hs.find? (fun p => p.1 == normHeader k)).map (·.2)

/-! ### ResponseBuilder -/

/-- Modelled from the spec: the body payload of the response builder,
"tagged with its content kind (json/text/binary/none)" (§3). -/
inductive BodyPayload where
  | noBody : BodyPayload
  | textBody (s : String) : BodyPayload
  | jsonBody (v : JVal) : BodyPayload
  | binBody (bs : List Nat) : BodyPayload

/-- Modelled from the spec: the mutable canonical `ResponseBuilder` (§3,
§4.1) — status (default 200), case-insensitive last-write-wins headers, a
tagged body payload, and the cached JSON serialization required by the
"compute once, cache" rule of §4.1. -/
structure ResponseBuilder where
  status : Nat := 200
  headers : List (String × String) := []
  body : BodyPayload := .noBody
  jsonCache : Option String := none

/-- `setStatus(code)` — chainable status setter (§4.1, §6). -/
def ResponseBuilder.setStatus (b : ResponseBuilder) (code : Nat) : ResponseBuilder :=
  ⟨code, b.headers, b.body, b.jsonCache⟩

/-- `setHeader(name, value)` — chainable header setter (§4.1, §6). -/
def ResponseBuilder.setHeader (b : ResponseBuilder) (k v : String) : ResponseBuilder :=
  ⟨b.status, putHeader b.headers k v, b.body, b.jsonCache⟩

/-- `text(body)` — set a text body (§4.1, §6). -/
def ResponseBuilder.text (b : ResponseBuilder) (s : String) : ResponseBuilder :=
  ⟨b.status, b.headers, .textBody s, none⟩

/-- `json(data)` — "sets body kind to JSON, serializes `data`, and sets
`Content-Type: application/json` only if not already explicitly set" (§4.1).
The serialization is cached so `build()` never re-serializes. -/
def ResponseBuilder.json (b : ResponseBuilder) (v : JVal) : ResponseBuilder :=
  ⟨b.status,
   if hasHeaderKey b.headers "Content-Type" then b.headers
   else putHeader b.headers "Content-Type" "application/json",
   .jsonBody v, some (JVal.serialize v)⟩

/-- The rendered body of a built response snapshot, still tagged with the
content kind so adapters can choose the native write primitive (§6). -/
inductive SnapBody where
  | jsonOut (s : String) : SnapBody
  | textOut (s : String) : SnapBody
  | binOut (bs : List Nat) : SnapBody
deriving DecidableEq

/-- Modelled from the spec: the immutable native-shaped response snapshot
produced by `build()` (§3). -/
structure Snapshot where
  status : Nat
  headers : List (String × String)
  body : Option SnapBody
deriving DecidableEq

/-- Result of one `build()` call: the snapshot, the builder as left behind
by the call, and how many JSON serializations the call performed (the
instrumentation for the "compute once, cache" rule of §4.1). -/
structure BuildResult where
  snap : Snapshot
  builder : ResponseBuilder
  serializations : Nat

/-- Modelled from the spec: the terminal `build()` operation (§3, §4.1).
It freezes the accumulated state into a `Snapshot`; a JSON body uses the
cached serialization when present and serializes (and caches) exactly once
otherwise. -/
def ResponseBuilder.build (b : ResponseBuilder) : BuildResult :=
  match b.body with
  | .noBody => ⟨⟨b.status, b.headers, none⟩, b, 0⟩
  | .textBody s => ⟨⟨b.status, b.headers, some (.textOut s)⟩, b, 0⟩
  | .binBody bs => ⟨⟨b.status, b.headers, some (.binOut bs)⟩, b, 0⟩
  | .jsonBody v =>
    match b.jsonCache with
    | some s => ⟨⟨b.status, b.headers, some (.jsonOut s)⟩, b, 0⟩
    | none =>
      let s := JVal.serialize v
      ⟨⟨b.status, b.headers, some (.jsonOut s)⟩, ⟨b.status, b.headers, b.body, some s⟩, 1⟩

/-! ### Canonical Request -/

/-- Modelled from the spec: the canonical `Request` (§3, §4.1) — method,
URL, case-insensitive headers, and a lazily consumed once-readable body:
`stream` is the underlying body source (none for a null body), `consumed`
its read cursor, and `memo` the raw content memoized on first read. -/
structure Request where
  method : String
  url : String
  headers : List (String × String)
  stream : Option String := none
  consumed : Bool := false
  memo : Option String := none

/-- A canonical request over a fresh once-readable body holding `s`. -/
def freshRequest (s : String) : Request :=
  ⟨"POST", "http://localhost/", [], some s, false, none⟩

/-- Modelled from the spec: the shared raw read behind every body accessor
(§4.1) — returns the memoized raw content when present, otherwise consumes
the once-readable stream and memoizes it; a second consumption without a
memo fails.  A null body reads as the empty string. -/
def Request.readRaw (r : Request) : Except Err (String × Request) :=
  match r.memo with
  | some s => .ok (s, r)
  | none =>
    if r.consumed then .error "body already consumed"
    else
      match r.stream with
      | some s => .ok (s, ⟨r.method, r.url, r.headers, r.stream, true, some s⟩)
      | none => .ok ("", ⟨r.method, r.url, r.headers, r.stream, true, some ""⟩)

/-- `text()` body accessor (§4.1). -/
def Request.text (r : Request) : Except Err (String × Request) :=
  r.readRaw

/-- `arrayBuffer()` body accessor (§4.1); the raw bytes of the body. -/
def Request.arrayBuffer (r : Request) : Except Err (List Nat × Request) :=
  match r.readRaw with
  | .ok (s, r') => .ok (s.toList.map Char.toNat, r')
  | .error e => .error e

/-- `json()` body accessor (§4.1): parse the raw body text as JSON. -/
def Request.json (r : Request) : Except Err (JVal × Request) :=
  match r.readRaw with
  | .ok (s, r') =>
    match jsonParse s with
    | .ok v => .ok (v, r')
    | .error e => .error e
  | .error e => .error e

/-- One body-accessor call site: which of the three accessors is invoked. -/
inductive Acc where
  | text : Acc
  | json : Acc
  | arrayBuffer : Acc

/-- The value returned by one body-accessor call. -/
inductive AccResult where
  | textRes (s : String) : AccResult
  | jsonRes (v : JVal) : AccResult
  | bytesRes (bs : List Nat) : AccResult

/-- Run one body accessor on a request. -/
def runAcc : Acc → Request → Except Err (AccResult × Request)
  | .text, r =>
    match r.text with
    | .ok (s, r') => .ok (.textRes s, r')
    | .error e => .error e
  | .json, r =>
    match r.json with
    | .ok (v, r') => .ok (.jsonRes v, r')
    | .error e => .error e
  | .arrayBuffer, r =>
    match r.arrayBuffer with
    | .ok (bs, r') => .ok (.bytesRes bs, r')
    | .error e => .error e

/-- Run a sequence of body-accessor calls on a request, threading the
request's read state; fails as soon as one call fails. -/
def runSeq : List Acc → Request → Except Err (List AccResult × Request)
  | [], r => .ok ([], r)
  | a :: as, r =>
    match runAcc a r with
    | .error e => .error e
    | .ok (x, r') =>
      match runSeq as r' with
      | .ok (xs, r'') => .ok (x :: xs, r'')
      | .error e => .error e

/-- The result a body accessor must deliver on a request whose original
body content is `s` with JSON reading `v`. -/
def expectedRes (s : String) (v : JVal) : Acc → AccResult
  | .text => .textRes s
  | .json => .jsonRes v
  | .arrayBuffer => .bytesRes (s.toList.map Char.toNat)

/-! ### Execution Context, middleware units and the chain driver -/

/-- Modelled from the spec: the per-request execution `Context` (§3, §4.2)
— one canonical request, one response builder, the shared typed state
(modelled as a string key/value map) and, as the observation channel used
by the ordering tests ("push indices into a shared list", §8 P1), a trace
of integers. -/
structure Ctx where
  request : Request
  response : ResponseBuilder
  state : List (String × String)
  trace : List Int

/-- Modelled from the spec: a middleware unit under the continuation
contract of §4.3.  A handler performs pre-processing (`pre`, which may
fail), decides before calling `next()` whether to short-circuit
(`shortCircuits`, evaluated on the context after pre-processing), and — in
the continue case — performs post-processing after `next()` resolves
(`post`, which may also fail). -/
structure Middleware where
  name : String
  pre : Ctx → Except Err Ctx
  shortCircuits : Ctx → Bool
  post : Ctx → Except Err Ctx

/-- Modelled from the spec: one handler invocation under §4.3.  In the
short-circuit case `next` is never called and the handler reports
`done := true`; otherwise the handler awaits `next`, runs its
post-processing, returns `done := false` itself, and the driver propagates
the downstream `done` as authoritative (§4.3, §4.4). -/
def runHandler (m : Middleware) (next : Ctx → Except Err (Bool × Ctx))
    (c : Ctx) : Except Err (Bool × Ctx) :=
  match m.pre c with
  | .error e => .error e
  | .ok c1 =>
    if m.shortCircuits c1 then .ok (true, c1)
    else
      match next c1 with
      | .error e => .error e
      | .ok (dn, c2) =>
        match m.post c2 with
        | .error e => .error e
        | .ok c3 => .ok (dn, c3)

/-- Modelled from the spec: the chain driver (§4.4) — unit *i*'s `next` is
a closure invoking unit *i+1*, and the innermost `next` is a no-op
resolving immediately with `done := false` (fall-through). -/
def dispatch : List Middleware → Ctx → Except Err (Bool × Ctx)
  | [], c => .ok (false, c)
  | m :: rest, c => runHandler m (dispatch rest) c

/-- Modelled from the spec: a `Chain` is an ordered sequence of middleware
units (§3, §4.4). -/
structure Chain where
  units : List Middleware

/-- `createChain()` — the empty chain (§4.4, §6). -/
def createChain : Chain := ⟨[]⟩

/-- `.use(middleware)` — immutable ordered append returning an extended
chain (§3, §4.4, §9). -/
def Chain.use (ch : Chain) (m : Middleware) : Chain := ⟨ch.units ++ [m]⟩

/-- Modelled from the spec: the result of one execution (§3) —
`{done, response, state}` (§4.4). -/
structure Outcome where
  done : Bool
  response : Snapshot
  state : List (String × String)
deriving DecidableEq

/-- Turn a driver result into the public `Outcome` by building the
accumulated response. -/
def mkOutcome (p : Bool × Ctx) : Outcome :=
  ⟨p.1, p.2.response.build.snap, p.2.state⟩

/-- Modelled from the spec: `Chain.execute` (§4.4) — run the middleware
units as nested continuations over the given fresh context and collect the
final outcome; an uncaught handler failure propagates untouched (§4.4, §7). -/
def Chain.execute (ch : Chain) (c : Ctx) : Except Err Outcome :=
  match dispatch ch.units c with
  | .ok p => .ok (mkOutcome p)
  | .error e => .error e

/-! ### Plain (non-short-circuiting, non-failing) middleware -/

/-- A middleware unit that completes normally: total pre- and
post-processing and no short-circuit decision.  `PlainMw.toMw` embeds it
into the general handler contract. -/
structure PlainMw where
  preF : Ctx → Ctx
  postF : Ctx → Ctx

/-- Embed a plain middleware into the general continuation contract. -/
def PlainMw.toMw (p : PlainMw) : Middleware :=
  ⟨"plain", fun c => .ok (p.preF c), fun _ => false, fun c => .ok (p.postF c)⟩

/-- Apply the pre-processing of each middleware in registration order. -/
def applyPres (ms : List PlainMw) (c : Ctx) : Ctx :=
  ms.foldl (fun acc m => m.preF acc) c

/-- Apply the post-processing of each middleware in reverse registration
order (the last-registered unit's post-processing runs first). -/
def applyPostsRev (ms : List PlainMw) (c : Ctx) : Ctx :=
  ms.foldr (fun m acc => m.postF acc) c

/-! ### Adapter contract (§6) -/

/-- Whether a built response snapshot counts as produced content for the
adapter pass-through decision: a written body, or a status other than the
default 200 (pinned by the Hono adapter tests: a 404 or a 302 redirect is
returned rather than passed through). -/
def hasContent (s : Snapshot) : Bool :=
  s.body.isSome || s.status != 200

/-- What a callback-style adapter did with one request: whether it invoked
the native continue mechanism, and which snapshot (if any) it rendered to
the native response. -/
structure AdapterOutcome where
  nextCalled : Bool
  rendered : Option Snapshot
deriving DecidableEq

/-- Modelled from the spec: the adapter decision of §6 — stop the native
pipeline and render when `done = true` or content was produced; otherwise
invoke the native continue mechanism exactly when `passThrough` is
enabled. -/
def passDecision (passThrough : Bool) (out : Outcome) : AdapterOutcome :=
  if out.done then ⟨false, some out.response⟩
  else if hasContent out.response then ⟨false, some out.response⟩
  else if passThrough then ⟨true, none⟩
  else ⟨false, none⟩

/-- Modelled from the spec: `toHono(chain, options?)` (§6; behaviour pinned
by the Hono adapter tests).  `passThrough` defaults to enabled; a thrown
chain failure propagates to Hono. -/
def toHono (ch : Chain) (passThrough : Bool) (c : Ctx) : Except Err AdapterOutcome :=
  match ch.execute c with
  | .ok out => .ok (passDecision passThrough out)
  | .error e => .error e

/-- Modelled from the spec: `toKoa(chain, options?)` (§6; behaviour pinned
by the Koa adapter tests).  Same pass-through decision, rendered onto the
Koa context. -/
def toKoa (ch : Chain) (passThrough : Bool) (c : Ctx) : Except Err AdapterOutcome :=
  match ch.execute c with
  | .ok out => .ok (passDecision passThrough out)
  | .error e => .error e

/-- The observable effects the Express adapter performs on the native
`(res, next)` pair: status/header writes, body writes through `res.json` /
`res.send` / `res.end`, and every invocation of the native `next` callback
(with the error it was passed, if any). -/
structure ExpressEffects where
  statusWrites : List Nat
  headerWrites : List (String × String)
  jsonWrites : List String
  sendWrites : List String
  endCalls : Nat
  nextCalls : List (Option Err)
deriving DecidableEq

/-- Render a built snapshot onto a native Express response: write the
status, copy the headers, then emit the body with `res.json`, `res.send`
or `res.end` according to its content kind (pinned by the Express adapter
tests). -/
def renderExpress (s : Snapshot) : ExpressEffects :=
  match s.body with
  | some (.jsonOut j) => ⟨[s.status], s.headers, [j], [], 0, []⟩
  | some (.textOut t) => ⟨[s.status], s.headers, [], [t], 0, []⟩
  | some (.binOut bs) => ⟨[s.status], s.headers, [], [String.mk (bs.map Char.ofNat)], 0, []⟩
  | none => ⟨[s.status], s.headers, [], [], 1, []⟩

/-- Modelled from the spec: `toExpress(chain, options?)` (§6, §7; behaviour
pinned by the Express adapter tests).  The adapter awaits the chain; a
rejection is caught and forwarded to the native `next(error)` with nothing
written to the response; otherwise it renders or passes through per the
§6 contract.  The adapter itself never rejects: it totally returns its
native effects. -/
def toExpress (ch : Chain) (passThrough : Bool) (c : Ctx) : ExpressEffects :=
  match ch.execute c with
  | .error e => ⟨[], [], [], [], 0, [some e]⟩
  | .ok out =>
    if out.done || hasContent out.response then renderExpress out.response
    else if passThrough then ⟨[], [], [], [], 0, [none]⟩
    else renderExpress out.response

/-! ### Testing helpers: mockRequest -/

/-- The body option accepted by `mockRequest`: absent, a raw string, or a
JSON value. -/
inductive MockBody where
  | noBody : MockBody
  | strBody (s : String) : MockBody
  | jsonBody (v : JVal) : MockBody

/-- Options accepted by `mockRequest` (pinned by its unit tests). -/
structure MockOptions where
  method : String := "GET"
  url : String := "http://localhost/"
  headers : List (String × String) := []
  body : MockBody := .noBody
  query : List (String × String) := []

/-- Append query parameters to a URL. -/
def appendQuery (url : String) (q : List (String × String)) : String :=
  match q with
  | [] => url
  | _ => url ++ "?" ++ String.intercalate "&" (q.map (fun p => p.1 ++ "=" ++ p.2))

/-- Modelled from the spec: the `mockRequest` testing helper, whose source
is absent from the repository; modelled from its unit tests
(src/packages/testing/tests/unit/mock-request.test.ts).  It builds a
canonical request from the options; a JSON body is serialized and tagged
`Content-Type: application/json` unless that header was set explicitly;
for GET and HEAD methods no body is attached (the returned request's body
is null) even when a body option is supplied. -/
def mockRequest (o : MockOptions) : Request :=
  let bodyless := o.method == "GET" || o.method == "HEAD"
  let stream : Option String :=
    if bodyless then none
    else
      match o.body with
      | .noBody => none
      | .strBody s => some s
      | .jsonBody v => some (JVal.serialize v)
  let headers :=
    match o.body with
    | .jsonBody _ =>
      if bodyless || hasHeaderKey o.headers "Content-Type" then o.headers
      else putHeader o.headers "Content-Type" "application/json"
    | _ => o.headers
  ⟨o.method, appendQuery o.url o.query, headers, stream, false, none⟩

/-! ### Failing middleware and concrete fixtures -/

/-- A middleware whose handler throws `e` during its pre-`next()` phase. -/
def throwingPre (e : Err) : Middleware :=
  ⟨"throwing", fun _ => .error e, fun _ => false, fun c => .ok c⟩

/-- A middleware whose handler awaits `next()` and then throws `e` during
its post-`next()` phase. -/
def throwingPost (e : Err) : Middleware :=
  ⟨"throwingPost", fun c => .ok c, fun _ => false, fun _ => .error e⟩

/-- The results of a body-accessor sequence, with the final request state
dropped. -/
def runSeqResults (seq : List Acc) (r : Request) : Except Err (List AccResult) :=
  match runSeq seq r with
  | .ok (xs, _) => .ok xs
  | .error e => .error e

/-- A canonical request's read state over original body content `s`:
either the raw content is already memoized, or the once-readable stream
still holds `s` unconsumed. -/
def ReadState (s : String) (r : Request) : Prop :=
  r.memo = some s ∨ (r.memo = none ∧ r.consumed = false ∧ r.stream = some s)

/-- A GET request with a null body, used as concrete fixture. -/
def ctx0Req : Request := ⟨"GET", "http://localhost/", [], none, false, none⟩

/-- A fresh execution context over `ctx0Req` and a default builder. -/
def ctx0 : Ctx := ⟨ctx0Req, ⟨200, [], .noBody, none⟩, [], []⟩

/-- A plain middleware pushing `i` onto the context trace before `next()`
and `-i` after it — the instrumented middleware of the ordering test (§8 P1). -/
def traceMw (i : Int) : PlainMw :=
  ⟨fun c => ⟨c.request, c.response, c.state, c.trace ++ [i]⟩,
   fun c => ⟨c.request, c.response, c.state, c.trace ++ [-i]⟩⟩

/-- A middleware that writes a 401 JSON response in its pre-phase and
short-circuits (never calling `next()`), as in the auth scenario of §8. -/
def authRejectMw : Middleware :=
  ⟨"auth",
   fun c => .ok ⟨c.request,
                 (c.response.setStatus 401).json (.jObj [("error", .jStr "Unauthorized")]),
                 c.state, c.trace⟩,
   fun _ => true,
   fun c => .ok c⟩

/-- The context reached by `authRejectMw`'s short-circuit decision in the
concrete witness chain `traceMw 1 → authRejectMw → traceMw 2`. -/
def scReachedCtx : Ctx :=
  ⟨ctx0Req,
   (ResponseBuilder.json (ResponseBuilder.setStatus ⟨200, [], .noBody, none⟩ 401)
     (.jObj [("error", .jStr "Unauthorized")])),
   [], [1]⟩

/-- A middleware that only sets status 404 and continues, as in the Hono
adapter's non-200 status test. -/
def notFoundMw : Middleware :=
  ⟨"notFound",
   fun c => .ok ⟨c.request, c.response.setStatus 404, c.state, c.trace⟩,
   fun _ => false,
   fun c => .ok c⟩

/-- A chain whose single middleware sets status 404 without a body. -/
def notFoundChain : Chain := createChain.use notFoundMw

/-- A chain whose single middleware throws, as in the Express adapter's
error test. -/
def errChain : Chain := createChain.use (throwingPre "Test error")

/-- The JSON body text of §8 P4. -/
def jsonBodyStr : String := "\x7b\"a\":1\x7d"

/-- The JSON value of §8 P4. -/
def jsonBodyVal : JVal := .jObj [("a", .jNum 1)]

/-! ### Frame lemma for the chain driver -/

/-- Running a prefix of plain middleware frames any suffix: the prefix's
pre-processing is applied in registration order before the suffix runs,
the suffix's `done` signal is propagated as authoritative, the prefix's
post-processing is applied in reverse registration order afterwards, and a
suffix failure propagates untouched. -/
theorem dispatch_plain_frame (pres : List PlainMw) (L : List Middleware) (c : Ctx) :
    dispatch (pres.map PlainMw.toMw ++ L) c =
      match dispatch L (applyPres pres c) with
      | .ok p => .ok (p.1, applyPostsRev pres p.2)
      | .error e => .error e := by
  induction pres generalizing c with
  | nil =>
    simp only [List.map_nil, List.nil_append, applyPres, applyPostsRev,
      List.foldl_nil, List.foldr_nil]
    cases hd : dispatch L c with
    | ok p => rfl
    | error e => rfl
  | cons p ps ih =>
    have hstep : dispatch ((p :: ps).map PlainMw.toMw ++ L) c
        = match dispatch (ps.map PlainMw.toMw ++ L) (p.preF c) with
          | .error e => .error e
          | .ok (dn, c2) => .ok (dn, p.postF c2) := by
      simp [dispatch, runHandler, PlainMw.toMw]
    rw [hstep, ih, show applyPres (p :: ps) c = applyPres ps (p.preF c) from rfl]
    have hpost : ∀ x, applyPostsRev (p :: ps) x = p.postF (applyPostsRev ps x) := fun _ => rfl
    cases hd : dispatch L (applyPres ps (p.preF c)) with
    | ok q => simp [hpost]
    | error e => simp

/-! ### Claim theorems -/

/-- Claim C1: for every chain of middleware M1..Mn in which no middleware
short-circuits (and none fails), the chain driver applies each unit's
pre-`next()` processing in registration order M1→Mn and each unit's
post-`next()` processing in reverse registration order Mn→M1 (the onion
model), and `Chain.execute` reports `done = false`. -/
theorem chain_onion_order (ms : List PlainMw) (c : Ctx) :
    dispatch (ms.map PlainMw.toMw) c = .ok (false, applyPostsRev ms (applyPres ms c))
    ∧ Chain.execute ⟨ms.map PlainMw.toMw⟩ c
        = .ok (mkOutcome (false, applyPostsRev ms (applyPres ms c))) := by
  have h := dispatch_plain_frame ms [] c
  simp only [List.append_nil, dispatch] at h
  exact ⟨h, by simp [Chain.execute, h]⟩

/-- Claim C2: if the first middleware to decide `done := true` is reached
after a prefix of non-short-circuiting units, then none of the middleware
registered after it execute (the result does not depend on `rest`), the
prefix's post-`next()` processing still runs in reverse registration
order, and the execution outcome has `done = true` — the prefix units'
own `{done := false}` returns cannot undo it. -/
theorem chain_short_circuit_authority (pres : List PlainMw) (m : Middleware)
    (rest : List Middleware) (c c1 : Ctx)
    (hpre : m.pre (applyPres pres c) = .ok c1)
    (hsc : m.shortCircuits c1 = true) :
    dispatch (pres.map PlainMw.toMw ++ m :: rest) c = .ok (true, applyPostsRev pres c1)
    ∧ Chain.execute ⟨pres.map PlainMw.toMw ++ m :: rest⟩ c
        = .ok (mkOutcome (true, applyPostsRev pres c1)) := by
  have h := dispatch_plain_frame pres (m :: rest) c
  have hm : dispatch (m :: rest) (applyPres pres c) = .ok (true, c1) := by
    simp [dispatch, runHandler, hpre, hsc]
  rw [hm] at h
  exact ⟨h, by simp [Chain.execute, h]⟩

/-- Witness for C2: in the concrete chain `traceMw 1 → authRejectMw →
traceMw 2` the 401 short-circuit is authoritative, `traceMw 2` never runs,
and `traceMw 1`'s post-processing still runs. -/
theorem chain_short_circuit_authority_witness :
    dispatch ([traceMw 1].map PlainMw.toMw ++ authRejectMw :: [(traceMw 2).toMw]) ctx0
      = .ok (true, applyPostsRev [traceMw 1] scReachedCtx)
    ∧ Chain.execute ⟨[traceMw 1].map PlainMw.toMw ++ authRejectMw :: [(traceMw 2).toMw]⟩ ctx0
      = .ok (mkOutcome (true, applyPostsRev [traceMw 1] scReachedCtx)) :=
  chain_short_circuit_authority [traceMw 1] authRejectMw [(traceMw 2).toMw] ctx0
    scReachedCtx rfl rfl

/-- Claim C3: a failure raised by any middleware handler — in its
pre-`next()` phase (the downstream suffix never runs) or in its
post-`next()` phase after `next()` resolved — propagates out of
`Chain.execute` unchanged: the chain neither catches, translates, nor
converts it into a response outcome. -/
theorem execute_propagates_failure (pres post2 : List PlainMw)
    (rest : List Middleware) (e : Err) (c : Ctx) :
    Chain.execute ⟨pres.map PlainMw.toMw ++ throwingPre e :: rest⟩ c = .error e
    ∧ Chain.execute ⟨pres.map PlainMw.toMw ++ throwingPost e :: post2.map PlainMw.toMw⟩ c
        = .error e := by
  constructor
  · have h := dispatch_plain_frame pres (throwingPre e :: rest) c
    have hm : dispatch (throwingPre e :: rest) (applyPres pres c) = .error e := by
      simp [dispatch, runHandler, throwingPre]
    rw [hm] at h
    simp [Chain.execute, h]
  · have h := dispatch_plain_frame pres
      (throwingPost e :: post2.map PlainMw.toMw) c
    have hnext := dispatch_plain_frame post2 [] (applyPres pres c)
    simp only [List.append_nil, dispatch] at hnext
    have hm : dispatch (throwingPost e :: post2.map PlainMw.toMw) (applyPres pres c)
        = .error e := by
      simp [dispatch, runHandler, throwingPost, hnext]
    rw [hm] at h
    simp [Chain.execute, h]

/-- Claim C7: `.use` returns an extended chain holding the base chain's
units followed by the appended one; the base chain is an unchanged value,
so several extended chains can be derived from a shared base (each keeps
the base as a prefix) and executing the base runs only its own units. -/
theorem chain_use_immutable_append (ch : Chain) (m m' : Middleware) (c : Ctx) :
    (ch.use m).units = ch.units ++ [m]
    ∧ (ch.use m').units = ch.units ++ [m']
    ∧ (ch.use m).units.take ch.units.length = ch.units
    ∧ (ch.use m').units.take ch.units.length = ch.units
    ∧ Chain.execute ch c = Chain.execute ⟨ch.units⟩ c := by
  refine ⟨rfl, rfl, ?_, ?_, rfl⟩ <;> simp [Chain.use, List.take_left]

/-- Claim C5: `build()` is idempotent — a second build yields an identical
snapshot, the builder's status, headers and body payload are never
mutated by building, the builder left behind by a build is a fixed point
of building, and across the two calls the JSON body is serialized at most
once. -/
theorem build_idempotent_cached (b : ResponseBuilder) :
    b.build.builder.build.snap = b.build.snap
    ∧ b.build.builder.status = b.status
    ∧ b.build.builder.headers = b.headers
    ∧ b.build.builder.body = b.body
    ∧ b.build.builder.build.builder = b.build.builder
    ∧ b.build.serializations + b.build.builder.build.serializations ≤ 1 := by
  obtain ⟨st, hs, body, cache⟩ := b
  cases body with
  | noBody => exact ⟨rfl, rfl, rfl, rfl, rfl, (by decide : (0 : Nat) + 0 ≤ 1)⟩
  | textBody s => exact ⟨rfl, rfl, rfl, rfl, rfl, (by decide : (0 : Nat) + 0 ≤ 1)⟩
  | binBody bs => exact ⟨rfl, rfl, rfl, rfl, rfl, (by decide : (0 : Nat) + 0 ≤ 1)⟩
  | jsonBody v =>
    cases cache with
    | some s => exact ⟨rfl, rfl, rfl, rfl, rfl, (by decide : (0 : Nat) + 0 ≤ 1)⟩
    | none => exact ⟨rfl, rfl, rfl, rfl, rfl, (by decide : (1 : Nat) + 0 ≤ 1)⟩

/-- The shared raw read succeeds on any request in a valid read state over
content `s`, returns `s`, and leaves the request with `s` memoized. -/
theorem readRaw_state (s : String) (r : Request) (h : ReadState s r) :
    ∃ r', r.readRaw = .ok (s, r') ∧ ReadState s r' := by
  rcases h with hm | ⟨hm, hc, hs⟩
  · exact ⟨r, by simp [Request.readRaw, hm], Or.inl hm⟩
  · refine ⟨⟨r.method, r.url, r.headers, r.stream, true, some s⟩, ?_, Or.inl rfl⟩
    simp [Request.readRaw, hm, hc, hs]

/-- Any sequence of body accessors on a request in a valid read state over
content `s` (whose JSON reading is `v`) succeeds, each call returning the
result determined by `s` alone. -/
theorem runSeq_state (s : String) (v : JVal) (hv : jsonParse s = .ok v) :
    ∀ (seq : List Acc) (r : Request), ReadState s r →
      ∃ r', runSeq seq r = .ok (seq.map (expectedRes s v), r') ∧ ReadState s r' := by
  intro seq
  induction seq with
  | nil => exact fun r h => ⟨r, rfl, h⟩
  | cons a as ih =>
    intro r h
    obtain ⟨r1, hr1, hst1⟩ := readRaw_state s r h
    have hacc : runAcc a r = .ok (expectedRes s v a, r1) := by
      cases a <;>
        simp [runAcc, Request.text, Request.json, Request.arrayBuffer,
          hr1, expectedRes, hv]
    obtain ⟨r2, hr2, hst2⟩ := ih r1 hst1
    exact ⟨r2, by simp [runSeq, hacc, hr2], hst2⟩

/-- Counterexample to claim C4 as stated: on a once-readable body holding
`"x"` — which is not JSON — the accessor sequence consisting of a single
`json()` call throws, so not every accessor sequence on every canonical
request succeeds. -/
theorem request_json_accessor_can_throw :
    runSeq [Acc.json] (freshRequest "x") = .error "unexpected character" := rfl

/-- Claim C4 (amended): on a canonical request with a once-readable body
whose content parses as JSON, every sequence of `text()`, `json()` and
`arrayBuffer()` calls — in particular `text()` then `json()` or vice
versa — succeeds without throwing, and each call returns the result
determined by the original body content (the raw content is memoized on
the first read, so repeated and mixed accessor calls are idempotent). -/
theorem request_body_accessors_memoized (s : String) (v : JVal) (seq : List Acc)
    (hv : jsonParse s = .ok v) :
    runSeqResults seq (freshRequest s) = .ok (seq.map (expectedRes s v)) := by
  obtain ⟨r', hr, _⟩ := runSeq_state s v hv seq (freshRequest s)
    (Or.inr ⟨rfl, rfl, rfl⟩)
  simp [runSeqResults, hr]

/-- Witness for C4 (amended) at the body of §8 P4: on the JSON body
holding the object with field a mapped to 1, the sequence `text()`,
`json()`, `arrayBuffer()` succeeds with consistent results. -/
theorem request_body_accessors_memoized_witness :
    jsonParse jsonBodyStr = .ok jsonBodyVal
    ∧ runSeqResults [Acc.text, Acc.json, Acc.arrayBuffer] (freshRequest jsonBodyStr)
        = .ok [.textRes jsonBodyStr, .jsonRes jsonBodyVal,
               .bytesRes (jsonBodyStr.toList.map Char.toNat)] :=
  ⟨rfl, request_body_accessors_memoized jsonBodyStr jsonBodyVal
    [Acc.text, Acc.json, Acc.arrayBuffer] rfl⟩

/-- Claim C6: for an adapter produced with `passThrough` enabled, a chain
execution ending with `done = false` and no produced content makes the
adapter invoke the native continue mechanism; if body content was written
the adapter does not invoke it even though `done = false`.  Stated for
both the Hono and the Koa adapter. -/
theorem adapter_pass_through_semantics (ch : Chain) (c : Ctx) (out : Outcome)
    (hex : ch.execute c = .ok out) (hdone : out.done = false) :
    (hasContent out.response = false →
        toHono ch true c = .ok ⟨true, none⟩ ∧ toKoa ch true c = .ok ⟨true, none⟩)
    ∧ (out.response.body.isSome = true →
        toHono ch true c = .ok ⟨false, some out.response⟩
          ∧ toKoa ch true c = .ok ⟨false, some out.response⟩) := by
  constructor
  · intro hnc
    constructor <;> simp [toHono, toKoa, hex, passDecision, hdone, hnc]
  · intro hb
    have hc : hasContent out.response = true := by simp [hasContent, hb]
    constructor <;> simp [toHono, toKoa, hex, passDecision, hdone, hc]

/-- Witness for C6: the empty chain produces no content and `done = false`,
so the Hono and Koa adapters with `passThrough` enabled invoke the native
next. -/
theorem adapter_pass_through_semantics_witness :
    toHono createChain true ctx0 = .ok ⟨true, none⟩
      ∧ toKoa createChain true ctx0 = .ok ⟨true, none⟩ :=
  (adapter_pass_through_semantics createChain ctx0
    ⟨false, ⟨200, [], none⟩, []⟩ rfl rfl).1 rfl

/-- Claim C8: `mockRequest` never attaches a body to a GET or HEAD
request — the returned request's body is null even when a body option is
supplied. -/
theorem mock_request_drops_body_for_get_head (o : MockOptions)
    (h : o.method = "GET" ∨ o.method = "HEAD") :
    (mockRequest o).stream = none := by
  rcases h with h | h <;> simp [mockRequest, h]

/-- Witness for C8: a HEAD mock request carrying a JSON body option has a
null body. -/
theorem mock_request_drops_body_for_get_head_witness :
    (mockRequest ⟨"HEAD", "http://localhost/", [],
        .jsonBody (.jObj [("shouldNotExist", .jBool true)]), []⟩).stream = none :=
  mock_request_drops_body_for_get_head _ (Or.inr rfl)

/-- Claim C9: when the chain execution rejects with `e`, the Express
middleware does not itself reject (it totally returns its native
effects), invokes the native `next` callback with exactly `e`, and writes
no status, headers, or body to the native response. -/
theorem express_forwards_chain_error (ch : Chain) (pt : Bool) (c : Ctx) (e : Err)
    (hex : ch.execute c = .error e) :
    toExpress ch pt c = ⟨[], [], [], [], 0, [some e]⟩ := by
  simp [toExpress, hex]

/-- Witness for C9: a chain whose middleware throws "Test error" makes the
Express adapter call `next` with that error and write nothing. -/
theorem express_forwards_chain_error_witness :
    toExpress errChain false ctx0 = ⟨[], [], [], [], 0, [some "Test error"]⟩ :=
  express_forwards_chain_error errChain false ctx0 "Test error" rfl

/-- Claim C10: a chain execution ending with `done = false`, no body, and
a status other than 200 makes the Hono adapter with default options
return the built response without invoking the native next — a
non-default status counts as produced content. -/
theorem hono_returns_non_default_status (ch : Chain) (c : Ctx) (out : Outcome)
    (hex : ch.execute c = .ok out) (hdone : out.done = false)
    (hbody : out.response.body = none) (hstat : out.response.status ≠ 200) :
    toHono ch true c = .ok ⟨false, some out.response⟩ := by
  have hb : (out.response.status != 200) = true := bne_iff_ne.mpr hstat
  have hc : hasContent out.response = true := by simp [hasContent, hbody, hb]
  simp [toHono, hex, passDecision, hdone, hc]

/-- Witness for C10: a chain that only sets status 404 makes the Hono
adapter return the 404 response and skip the native next. -/
theorem hono_returns_non_default_status_witness :
    toHono notFoundChain true ctx0 = .ok ⟨false, some ⟨404, [], none⟩⟩ :=
  hono_returns_non_default_status notFoundChain ctx0 ⟨false, ⟨404, [], none⟩, []⟩
    rfl rfl rfl (by decide)

end OpenMiddleware
